import Mathlib

/-!
Shallow embedding of the hs_core repository sources:
  src/hydroshare/hs_bagit.py    (make_zipfile, create_bag)
  src/hydroshare/resource.py    (resource CRUD API)
  src/base64field.py            (Base64FileField.dehydrate)

Filesystem state is modelled as flat lists of directory paths and of file
paths with contents; database tables as lists of records; Python
exceptions as an error type threaded through Except.  Helpers from
hs_core.hydroshare.utils (get_resource_by_shortkey, user_from_id,
group_from_id) are not under src/ and are modelled from the spec, as noted
on their definitions.
-/

/-- A filesystem path, given by its list of components from the root. -/
abbrev FPath := List String

/-- Python exceptions that the embedded code can raise. -/
inductive PyExc where
  | objectDoesNotExist (msg : String)
  | typeErrorNotCallable
  | notImplementedError
  | indexError
  | ioError
deriving DecidableEq

/-- Flat filesystem state: the set of existing directories and the set of
regular files together with their contents. -/
structure FS where
  dirs : List FPath
  files : List (FPath × String)
deriving DecidableEq

/-- Boolean test that path q lies inside (or equals) directory base.  This
is the traversal domain of os.walk(base) and the removal domain of
shutil.rmtree(base). -/
def underB (base q : FPath) : Bool := decide (q.take base.length = base)

/-- One entry of a zip archive: the archive name plus the file content;
content none marks a directory entry, as written by zip.write on a
directory. -/
structure ZipEntry where
  arc : FPath
  content : Option String
deriving DecidableEq

/-- os.path.relpath(p, relroot) where relroot is the parent of sourceDir
and p lies inside sourceDir: the basename of the source directory followed
by the remainder of p below sourceDir. -/
def arcnameOf (sourceDir p : FPath) : FPath :=
  sourceDir.getLastD "" :: p.drop sourceDir.length

/-- The regular files directly inside directory d, as (basename, content)
pairs; this is the filenames component that os.walk reports for d. -/
def dirFiles (fs : FS) (d : FPath) : List (String × String) :=
  fs.files.filterMap (fun pc =>
    if pc.1.dropLast = d then some (pc.1.getLastD "", pc.2) else none)

/-- make_zipfile from hs_bagit.py: walk every directory at or below
sourceDir; write an archive entry for the directory itself (needed for
empty directories) and then an entry for each regular file in it, with the
archive name built as join(relpath(root, relroot), file). -/
def make_zipfile (fs : FS) (sourceDir : FPath) : List ZipEntry :=
  (fs.dirs.filter (fun d => underB sourceDir d)).flatMap (fun root =>
    ZipEntry.mk (arcnameOf sourceDir root) none ::
      (dirFiles fs root).map (fun nc =>
        ZipEntry.mk (arcnameOf sourceDir root ++ [nc.1]) (some nc.2)))

/-- os.makedirs: create the directory and all its ancestors. -/
def ancestorsOf (p : FPath) : List FPath :=
  (List.range p.length).map (fun i => p.take (i + 1))

/-- os.makedirs applied to the flat filesystem. -/
def makedirs (fs : FS) (p : FPath) : FS :=
  { fs with dirs := fs.dirs ++ (ancestorsOf p).filter (fun q => decide (q ∉ fs.dirs)) }

/-- shutil.rmtree: remove the directory and everything below it. -/
def rmtreeFS (fs : FS) (p : FPath) : FS :=
  FS.mk (fs.dirs.filter (fun q => ! underB p q))
        (fs.files.filter (fun qc => ! underB p qc.1))

/-- os.unlink of a single file. -/
def unlinkFS (fs : FS) (p : FPath) : FS :=
  { fs with files := fs.files.filter (fun qc => decide (qc.1 ≠ p)) }

/-- Write (or overwrite) a regular file. -/
def writeFile (fs : FS) (p : FPath) (c : String) : FS :=
  { fs with files := (p, c) :: fs.files.filter (fun qc => decide (qc.1 ≠ p)) }

/-- The makedirs loop body of create_bag: try os.makedirs(d), and on any
exception (d already exists) remove the tree at d and recreate it. -/
def tryMakedirs (fs : FS) (d : FPath) : FS :=
  if d ∈ fs.dirs then makedirs (rmtreeFS fs d) d else makedirs fs d

/-- A Django auth User row, as used by create_bag and utils.user_from_id. -/
structure UserRec where
  uid : Nat
  username : String
  email : String
deriving DecidableEq

/-- The fields of an AbstractResource row that the embedded code reads or
writes: identity, descriptive metadata, and the many-to-many access lists
(stored as lists of user / group ids in insertion order). -/
structure ResourceRec where
  resId : Nat
  shortId : String
  title : String
  slug : String
  updated : Nat
  appLabel : String
  objectName : String
  owners : List Nat
  editUsers : List Nat
  viewUsers : List Nat
  editGroups : List Nat
  viewGroups : List Nat
deriving DecidableEq

/-- A ResourceFile row: owning resource, logical name, and the stored
file (its on-disk path and its contents). -/
structure ResourceFileRec where
  rfId : Nat
  contentObject : Nat
  name : String
  srcPath : FPath
  content : String
deriving DecidableEq

/-- A Bags row: owning resource, the attached zip artifact (represented by
its archive entries), and the timestamp. -/
structure BagsRec where
  contentObject : Nat
  bagFile : List ZipEntry
  timestamp : Nat
deriving DecidableEq

/-- A QualifiedDublinCoreElement payload. -/
structure DublinElem where
  term : String
  qualifier : Option String
  content : String
deriving DecidableEq

/-- The database tables touched by the embedded code. -/
structure DB where
  resources : List ResourceRec
  resourceFiles : List ResourceFileRec
  users : List UserRec
  groups : List Nat
  bags : List BagsRec
  assignedKeywords : List (Nat × String)
  dublinElements : List (Nat × DublinElem)
deriving DecidableEq

/-- The whole persistent state seen by create_bag: filesystem plus DB. -/
structure St where
  fs : FS
  db : DB
deriving DecidableEq

/-- The settings read by create_bag (BAGIT_TEMP_LOCATION and
HYDROSHARE_VERSION, with their getattr defaults already resolved). -/
structure Settings where
  bagitTempLocation : FPath
  hydroshareVersion : String
deriving DecidableEq

/-- arrow.get(resource.updated).format("YYYY.MM.DD.HH.mm.ss"): an opaque
but injective rendering of the updated timestamp; the claims depend only
on the rendered component, not on its shape. -/
def formatUpdated (n : Nat) : String := toString n

/-- The dest_prefix read from settings.BAGIT_TEMP_LOCATION. -/
def destLocOf (cfg : Settings) : FPath := cfg.bagitTempLocation

/-- bagit_path = os.path.join(dest_prefix, resource.short_id, arrow...). -/
def bagitPathOf (cfg : Settings) (r : ResourceRec) : FPath :=
  destLocOf cfg ++ [r.shortId, formatUpdated r.updated]

/-- visualization_path = os.path.join(bagit_path, 'visualization'). -/
def visualizationPathOf (cfg : Settings) (r : ResourceRec) : FPath :=
  bagitPathOf cfg r ++ ["visualization"]

/-- contents_path = os.path.join(bagit_path, 'contents'). -/
def contentsPathOf (cfg : Settings) (r : ResourceRec) : FPath :=
  bagitPathOf cfg r ++ ["contents"]

/-- zf = os.path.join(dest_prefix, resource.short_id) + ".zip". -/
def zfOf (cfg : Settings) (r : ResourceRec) : FPath :=
  destLocOf cfg ++ [r.shortId ++ ".zip"]

/-- resource.files.all(): the ResourceFile rows owned by the resource. -/
def resourceFilesOf (db : DB) (r : ResourceRec) : List ResourceFileRec :=
  db.resourceFiles.filter (fun f => f.contentObject == r.resId)

/-- os.path basename of a path. -/
def basenameOfPath (p : FPath) : String := p.getLastD ""

/-- The serialized resourcemetadata.json document.  The tastypie
serializer machinery (importlib lookup, build_bundle, full_dehydrate,
serialize) is external framework code; it is represented opaquely as a
document determined by the resource's fields. -/
def serializeResource (r : ResourceRec) : String :=
  String.intercalate ";" [r.appLabel, r.objectName, r.shortId, r.title, r.slug]

/-- The bag_info dictionary passed to bagit.make_bag. -/
structure BagInfo where
  title : String
  author : String
  authorEmail : String
  version : String
  resourceType : String
  hydroshareVersion : String
  shortkey : String
  slug : String
deriving DecidableEq

/-- The bag_info dictionary built by create_bag from the resource and its
first owner. -/
def bagInfoOf (cfg : Settings) (r : ResourceRec) (u : UserRec) : BagInfo :=
  BagInfo.mk r.title u.username u.email (formatUpdated r.updated)
    (r.appLabel ++ "." ++ r.objectName) cfg.hydroshareVersion r.shortId r.slug

/-- Rendering of the bag-info.txt tag file written by bagit.make_bag. -/
def renderBagInfo (info : BagInfo) : String :=
  String.intercalate "\n"
    [info.title, info.author, info.authorEmail, info.version,
     info.resourceType, info.hydroshareVersion, info.shortkey, info.slug]

/-- The filesystem effect of the external bagit.make_bag library call on
the staging tree at bagPath: the current payload (everything strictly
below bagPath) moves below bagPath/data, and the bag declaration,
bag-info and md5 manifest tag files are written at bagPath.  The md5
digests themselves are not modelled. -/
def makeBagMove (bagPath q : FPath) : FPath :=
  if underB bagPath q ∧ q ≠ bagPath then bagPath ++ "data" :: q.drop bagPath.length else q

/-- bagit.make_bag's effect on the flat filesystem (see makeBagMove). -/
def makeBagFS (fs : FS) (bagPath : FPath) (info : BagInfo) : FS :=
  FS.mk ((bagPath ++ ["data"]) :: fs.dirs.map (makeBagMove bagPath))
    ([(bagPath ++ ["bagit.txt"], "BagIt-Version: 0.97"),
      (bagPath ++ ["bag-info.txt"], renderBagInfo info),
      (bagPath ++ ["manifest-md5.txt"], "md5-manifest"),
      (bagPath ++ ["tagmanifest-md5.txt"], "md5-tagmanifest")]
      ++ fs.files.map (fun pc => (makeBagMove bagPath pc.1, pc.2)))

/-- One recorded step of create_bag, in the order the code performs them. -/
inductive BagEvent where
  | makeStagingDirs (destLoc bagPath visualizationPath contentsPath : FPath)
  | copyFile (src : FPath) (destDir : FPath)
  | writeResourceMetadata (dest : FPath)
  | makeBag (bagPath : FPath) (checksums : List String) (info : BagInfo)
  | makeZip (zf : FPath) (sourceDir : FPath)
  | createBagsRecord (rec : BagsRec)
  | unlinkZip (zf : FPath)
  | removeStagingTree (bagPath : FPath)
deriving DecidableEq

/-- The staging-tree creation loop of create_bag: for each of dest_prefix,
bagit_path, visualization_path, contents_path in order, try os.makedirs
and on failure rmtree then makedirs. -/
def stepDirs (cfg : Settings) (r : ResourceRec) (fs : FS) : FS × List BagEvent :=
  ([destLocOf cfg, bagitPathOf cfg r, visualizationPathOf cfg r,
      contentsPathOf cfg r].foldl tryMakedirs fs,
   [BagEvent.makeStagingDirs (destLocOf cfg) (bagitPathOf cfg r)
      (visualizationPathOf cfg r) (contentsPathOf cfg r)])

/-- The file-copy loop of create_bag: shutil.copy2 each resource file into
the contents directory (the destination name is the source basename). -/
def copyLoop (dest : FPath) : FS → List ResourceFileRec → FS × List BagEvent
  | fs, [] => (fs, [])
  | fs, f :: rest =>
    let fs2 := writeFile fs (dest ++ [basenameOfPath f.srcPath]) f.content
    let res := copyLoop dest fs2 rest
    (res.1, BagEvent.copyFile f.srcPath dest :: res.2)

/-- The metadata-serialization step of create_bag: write
resourcemetadata.json at the root of the staging tree. -/
def stepMetadata (cfg : Settings) (r : ResourceRec) (fs : FS) : FS × List BagEvent :=
  (writeFile fs (bagitPathOf cfg r ++ ["resourcemetadata.json"]) (serializeResource r),
   [BagEvent.writeResourceMetadata (bagitPathOf cfg r ++ ["resourcemetadata.json"])])

/-- The staging tree right before bagit.make_bag runs: directories made,
resource files copied, metadata document written. -/
def stagedTreeFS (cfg : Settings) (r : ResourceRec) (s : St) : FS :=
  (stepMetadata cfg r
    (copyLoop (contentsPathOf cfg r) (stepDirs cfg r s.fs).1 (resourceFilesOf s.db r)).1).1

/-- The zip artifact create_bag produces: make_zipfile over the staging
tree after bagit.make_bag restructured it. -/
def bagArtifact (cfg : Settings) (r : ResourceRec) (s : St) (info : BagInfo) : List ZipEntry :=
  make_zipfile (makeBagFS (stagedTreeFS cfg r s) (bagitPathOf cfg r) info) (bagitPathOf cfg r)

/-- The result of a completed create_bag call: the final persistent state,
the returned Bags row, and the ordered trace of steps performed. -/
structure CreateBagResult where
  state : St
  ret : BagsRec
  trace : List BagEvent
deriving DecidableEq

/-- create_bag from hs_bagit.py.  A resource with no owners makes
resource.owners.all()[0] raise IndexError while building the bag_info
dictionary (an owner id missing from the users table cannot resolve
either); the partial filesystem effects of such an aborted call are not
modelled, only completed calls report a state. -/
def create_bag (cfg : Settings) (r : ResourceRec) (s : St) : Except PyExc CreateBagResult :=
  let fs1 := (stepDirs cfg r s.fs).1
  let ev1 := (stepDirs cfg r s.fs).2
  let fs2 := (copyLoop (contentsPathOf cfg r) fs1 (resourceFilesOf s.db r)).1
  let ev2 := (copyLoop (contentsPathOf cfg r) fs1 (resourceFilesOf s.db r)).2
  let fs3 := (stepMetadata cfg r fs2).1
  let ev3 := (stepMetadata cfg r fs2).2
  match r.owners with
  | [] => Except.error PyExc.indexError
  | o :: _ =>
    match s.db.users.find? (fun w => w.uid == o) with
    | none => Except.error (PyExc.objectDoesNotExist (toString o))
    | some u =>
      let info := bagInfoOf cfg r u
      let fs4 := makeBagFS fs3 (bagitPathOf cfg r) info
      let ev4 := [BagEvent.makeBag (bagitPathOf cfg r) ["md5"] info]
      let entries := make_zipfile fs4 (bagitPathOf cfg r)
      let fs5 := writeFile fs4 (zfOf cfg r) "PK"
      let ev5 := [BagEvent.makeZip (zfOf cfg r) (bagitPathOf cfg r)]
      let b := BagsRec.mk r.resId entries r.updated
      let db2 := { s.db with bags := s.db.bags ++ [b] }
      let ev6 := [BagEvent.createBagsRecord b]
      let fs6 := unlinkFS fs5 (zfOf cfg r)
      let fs7 := rmtreeFS fs6 (bagitPathOf cfg r)
      Except.ok (CreateBagResult.mk (St.mk fs7 db2) b
        (ev1 ++ ev2 ++ ev3 ++ ev4 ++ ev5 ++ ev6 ++
          [BagEvent.unlinkZip (zfOf cfg r), BagEvent.removeStagingTree (bagitPathOf cfg r)]))

/-- Modelled from the spec: utils.get_resource_by_shortkey is code of this
repository that is not under src/.  Per the spec, resources are looked up
by their unique HydroShare identifier and a missing resource surfaces the
framework's standard not-found signal (ObjectDoesNotExist). -/
def get_resource_by_shortkey (db : DB) (pk : String) : Except PyExc ResourceRec :=
  match db.resources.find? (fun r => r.shortId == pk) with
  | some r => Except.ok r
  | none => Except.error (PyExc.objectDoesNotExist pk)

/-- get_system_metadata from resource.py: returns the resource looked up
by pid. -/
def get_system_metadata (db : DB) (pk : String) : Except PyExc ResourceRec :=
  get_resource_by_shortkey db pk

/-- get_science_metadata from resource.py: returns get_system_metadata(pk). -/
def get_science_metadata (db : DB) (pk : String) : Except PyExc ResourceRec :=
  get_system_metadata db pk

/-- The for/else loop of get_resource_file: return the first ResourceFile
whose stored file name equals filename; if the loop finishes with no
match, raise ObjectDoesNotExist(filename). -/
def findFileLoop (filename : String) : List ResourceFileRec → Except PyExc ResourceFileRec
  | [] => Except.error (PyExc.objectDoesNotExist filename)
  | f :: rest =>
    if f.name = filename then Except.ok f else findFileLoop filename rest

/-- get_resource_file from resource.py. -/
def get_resource_file (db : DB) (pk filename : String) : Except PyExc ResourceFileRec :=
  match get_resource_by_shortkey db pk with
  | Except.error e => Except.error e
  | Except.ok resource => findFileLoop filename (resourceFilesOf db resource)

/-- rf.save() after assigning the new file contents. -/
def saveResourceFile (db : DB) (rf : ResourceFileRec) : DB :=
  { db with resourceFiles := db.resourceFiles.map (fun g => if g.rfId == rf.rfId then rf else g) }

/-- update_resource_file from resource.py, exactly as written: the loop
body updates rf when its name matches, but the return statement sits
inside the loop and outside the if, so the first iteration always
returns; the for/else raise is reached only when the resource has no
files at all. -/
def update_resource_file (db : DB) (pk filename data : String) :
    Except PyExc (ResourceFileRec × DB) :=
  match get_resource_by_shortkey db pk with
  | Except.error e => Except.error e
  | Except.ok resource =>
    match resourceFilesOf db resource with
    | [] => Except.error (PyExc.objectDoesNotExist filename)
    | rf :: _ =>
      if rf.name = filename then
        let rf2 := { rf with content := data }
        Except.ok (rf2, saveResourceFile db rf2)
      else
        Except.ok (rf, db)

/-- Python semantics of the expression NotImplemented(): the builtin
constant NotImplemented is not callable, so evaluating the call raises
TypeError before the surrounding raise statement receives a value. -/
def callNotImplementedConstant (α : Type) : Except PyExc α :=
  Except.error PyExc.typeErrorNotCallable

/-- get_related from resource.py: its body is the statement
raise NotImplemented().  It reads or writes no persistent state. -/
def get_related (db : DB) (pk : String) : Except PyExc (List String) × DB :=
  (callNotImplementedConstant (List String), db)

/-- get_checksum from resource.py: its body is the statement
raise NotImplemented().  It reads or writes no persistent state. -/
def get_checksum (db : DB) (pk : String) : Except PyExc String × DB :=
  (callNotImplementedConstant String, db)

/-- Modelled from the spec: utils.user_from_id is code of this repository
that is not under src/.  Per the spec it resolves a user id to the user
record, surfacing the standard not-found signal when absent. -/
def user_from_id (db : DB) (u : Nat) : Except PyExc UserRec :=
  match db.users.find? (fun w => w.uid == u) with
  | some w => Except.ok w
  | none => Except.error (PyExc.objectDoesNotExist (toString u))

/-- Modelled from the spec: utils.group_from_id is code of this repository
that is not under src/.  Per the spec it resolves a group id to the group,
surfacing the standard not-found signal when absent. -/
def group_from_id (db : DB) (g : Nat) : Except PyExc Nat :=
  if g ∈ db.groups then Except.ok g else Except.error (PyExc.objectDoesNotExist (toString g))

/-- Django many-to-many add: a no-op when the member is already present,
otherwise appended. -/
def addM2M (l : List Nat) (x : Nat) : List Nat := if x ∈ l then l else l ++ [x]

/-- The edit_users loop of update_resource: resolve each id, add the user
to edit_users and to view_users. -/
def editUsersLoop (db : DB) (r : ResourceRec) : List Nat → Except PyExc ResourceRec
  | [] => Except.ok r
  | u :: rest =>
    match user_from_id db u with
    | Except.error e => Except.error e
    | Except.ok w =>
      editUsersLoop db
        { r with editUsers := addM2M r.editUsers w.uid, viewUsers := addM2M r.viewUsers w.uid }
        rest

/-- The view_users loop of update_resource: resolve each id, add the user
to view_users. -/
def viewUsersLoop (db : DB) (r : ResourceRec) : List Nat → Except PyExc ResourceRec
  | [] => Except.ok r
  | u :: rest =>
    match user_from_id db u with
    | Except.error e => Except.error e
    | Except.ok w =>
      viewUsersLoop db { r with viewUsers := addM2M r.viewUsers w.uid } rest

/-- The edit_groups loop of update_resource: resolve each id, add the
group to edit_groups and to view_groups. -/
def editGroupsLoop (db : DB) (r : ResourceRec) : List Nat → Except PyExc ResourceRec
  | [] => Except.ok r
  | g :: rest =>
    match group_from_id db g with
    | Except.error e => Except.error e
    | Except.ok gg =>
      editGroupsLoop db
        { r with editGroups := addM2M r.editGroups gg, viewGroups := addM2M r.viewGroups gg }
        rest

/-- The view_groups loop of update_resource: resolve each id, add the
group to view_groups. -/
def viewGroupsLoop (db : DB) (r : ResourceRec) : List Nat → Except PyExc ResourceRec
  | [] => Except.ok r
  | g :: rest =>
    match group_from_id db g with
    | Except.error e => Except.error e
    | Except.ok gg =>
      viewGroupsLoop db { r with viewGroups := addM2M r.viewGroups gg } rest

/-- The files branch of update_resource: delete the resource's
ResourceFile rows and create one per uploaded file. -/
def replaceResourceFiles (db : DB) (r : ResourceRec) (fls : List (FPath × String)) : DB :=
  { db with resourceFiles :=
      db.resourceFiles.filter (fun f => f.contentObject != r.resId)
        ++ fls.map (fun pc => ResourceFileRec.mk 0 r.resId (basenameOfPath pc.1) pc.1 pc.2) }

/-- The kwargs['owner'] branch of update_resource: add the owner to
view_users, edit_users and owners. -/
def applyOwnerKw (r : ResourceRec) : Option Nat → ResourceRec
  | none => r
  | some o =>
    { r with viewUsers := addM2M r.viewUsers o, editUsers := addM2M r.editUsers o,
             owners := addM2M r.owners o }

/-- The keywords branch of update_resource: delete the resource's
AssignedKeyword rows and create one per keyword. -/
def replaceKeywords (db : DB) (r : ResourceRec) (ks : List String) : DB :=
  { db with assignedKeywords :=
      db.assignedKeywords.filter (fun t => t.1 != r.resId) ++ ks.map (fun k => (r.resId, k)) }

/-- The dublin_metadata branch of update_resource: delete the resource's
QualifiedDublinCoreElement rows and create one per element. -/
def replaceDublin (db : DB) (r : ResourceRec) (ds : List DublinElem) : DB :=
  { db with dublinElements :=
      db.dublinElements.filter (fun t => t.1 != r.resId) ++ ds.map (fun d => (r.resId, d)) }

/-- Persist the mutated resource row (Django's many-to-many operations
write through immediately; this folds them into one final write). -/
def persistResource (db : DB) (r : ResourceRec) : DB :=
  { db with resources := db.resources.map (fun q => if q.resId == r.resId then r else q) }

/-- The if edit_users branch of update_resource: when truthy, clear
edit_users and run the add loop. -/
def editUsersBranch (db : DB) (r : ResourceRec) (eu : List Nat) : Except PyExc ResourceRec :=
  if eu.isEmpty then Except.ok r else editUsersLoop db { r with editUsers := [] } eu

/-- The if view_users branch of update_resource: when truthy, clear
view_users and run the add loop. -/
def viewUsersBranch (db : DB) (r : ResourceRec) (vu : List Nat) : Except PyExc ResourceRec :=
  if vu.isEmpty then Except.ok r else viewUsersLoop db { r with viewUsers := [] } vu

/-- The if edit_groups branch of update_resource: when truthy, clear
edit_groups and run the add loop. -/
def editGroupsBranch (db : DB) (r : ResourceRec) (eg : List Nat) : Except PyExc ResourceRec :=
  if eg.isEmpty then Except.ok r else editGroupsLoop db { r with editGroups := [] } eg

/-- The if view_groups branch of update_resource, exactly as the source
has it: when truthy, it clears edit_groups (not view_groups) and then
adds the given groups to view_groups. -/
def viewGroupsBranch (db : DB) (r : ResourceRec) (vg : List Nat) : Except PyExc ResourceRec :=
  if vg.isEmpty then Except.ok r else viewGroupsLoop db { r with editGroups := [] } vg

/-- update_resource from resource.py.  Python truthiness makes None and an
empty collection behave alike for every optional argument, so each is
modelled by a list (empty meaning absent) except owner. -/
def update_resource (db : DB) (pk : String)
    (edit_users view_users edit_groups view_groups : List Nat)
    (keywords : List String) (dublin_metadata : List DublinElem)
    (fls : List (FPath × String)) (ownerKw : Option Nat) :
    Except PyExc (ResourceRec × DB) :=
  match get_resource_by_shortkey db pk with
  | Except.error e => Except.error e
  | Except.ok r0 =>
    let db1 := if fls.isEmpty then db else replaceResourceFiles db r0 fls
    let r1 := applyOwnerKw r0 ownerKw
    match editUsersBranch db1 r1 edit_users with
    | Except.error e => Except.error e
    | Except.ok r2 =>
      match viewUsersBranch db1 r2 view_users with
      | Except.error e => Except.error e
      | Except.ok r3 =>
        match editGroupsBranch db1 r3 edit_groups with
        | Except.error e => Except.error e
        | Except.ok r4 =>
          match viewGroupsBranch db1 r4 view_groups with
          | Except.error e => Except.error e
          | Except.ok r5 =>
            let db2 := if keywords.isEmpty then db1 else replaceKeywords db1 r0 keywords
            let db3 := if dublin_metadata.isEmpty then db2 else replaceDublin db2 r0 dublin_metadata
            Except.ok (r5, persistResource db3 r5)

/-- The FieldFile stored on the model, as read by dehydrate; carries the
underlying file's name (file_field.file.name). -/
structure FieldFileV where
  fname : String
deriving DecidableEq

/-- The tastypie bundle as seen by Base64FileField.dehydrate: which keys
bundle.data already has, whether bundle.obj has the attribute, and the
attribute's value (none models a falsy/absent FieldFile). -/
structure Bundle where
  dataKeys : List String
  objHasAttr : Bool
  fieldVal : Option FieldFileV
deriving DecidableEq

/-- The environment of fallible library operations the dehydrate try-block
performs: mimetypes.guess_type, open, read, and str.encode("base64").
Each may raise (modelled by Except); open's success value is the file
object, represented by the readable content it yields. -/
structure DehydrateEnv where
  guessType : String → Except PyExc (Option String)
  openF : String → Except PyExc String
  readF : String → Except PyExc String
  b64encode : String → Except PyExc String

/-- The dictionary dehydrate returns on success. -/
structure DehydrateRet where
  name : String
  file : String
  contentType : String
deriving DecidableEq

/-- os.path.basename over the string form of a path. -/
def basenameStr (s : String) : String := (s.splitOn "/").getLastD ""

/-- The try-block body of Base64FileField.dehydrate: guess the content
type, open and read the file, base64-encode it, and build the returned
dictionary (content_type or "application/octet-stream"). -/
def dehydrateTryBody (env : DehydrateEnv) (ff : FieldFileV) : Except PyExc DehydrateRet :=
  match env.guessType ff.fname with
  | Except.error e => Except.error e
  | Except.ok ct =>
    match env.openF ff.fname with
    | Except.error e => Except.error e
    | Except.ok fobj =>
      match env.readF fobj with
      | Except.error e => Except.error e
      | Except.ok raw =>
        match env.b64encode raw with
        | Except.error e => Except.error e
        | Except.ok b64 =>
          Except.ok (DehydrateRet.mk (basenameStr ff.fname) b64
            (ct.getD "application/octet-stream"))

/-- Base64FileField.dehydrate from base64field.py: when the bundle lacks
the key, the object has the attribute, and the field is truthy, run the
try-block; any exception it raises is swallowed by the bare except and
the method returns None. -/
def dehydrate (env : DehydrateEnv) (instanceName : String) (bundle : Bundle) :
    Option DehydrateRet :=
  if instanceName ∈ bundle.dataKeys then none
  else if bundle.objHasAttr = false then none
  else
    match bundle.fieldVal with
    | none => none
    | some ff =>
      match dehydrateTryBody env ff with
      | Except.ok ret => some ret
      | Except.error _ => none

/-- Example user row for concrete evaluations. -/
def exUser : UserRec := UserRec.mk 1 "alice" "alice@example.org"

/-- Example resource row: owned by user 1, one view group (7) and one edit
group (9) already present. -/
def exRes : ResourceRec :=
  ResourceRec.mk 1 "r1" "Title" "slug" 5 "app" "Obj" [1] [] [] [9] [7]

/-- Example resource file a.txt of resource 1. -/
def exFileA : ResourceFileRec := ResourceFileRec.mk 1 1 "a.txt" ["store", "a.txt"] "A"

/-- Example resource file b.txt of resource 1. -/
def exFileB : ResourceFileRec := ResourceFileRec.mk 2 1 "b.txt" ["store", "b.txt"] "B"

/-- Example database: one resource with two files, one user, groups 3, 4. -/
def exDB : DB := DB.mk [exRes] [exFileA, exFileB] [exUser] [3, 4] [] [] []

/-- Example settings for create_bag. -/
def exCfg : Settings := Settings.mk ["tmp", "hydroshare"] "R1 development"

/-- Example persistent state for create_bag: empty filesystem plus exDB. -/
def exSt : St := St.mk (FS.mk [] []) exDB

/-- Example filesystem for make_zipfile: a source directory containing one
regular file and one empty subdirectory. -/
def exZipFS : FS :=
  FS.mk [["tmp"], ["tmp", "src"], ["tmp", "src", "empty"]]
    [(["tmp", "src", "a.txt"], "A")]

/-- The resource row after the concrete C10 witness call: edit group 9
cleared, group 3 added after view group 7. -/
def exRes5 : ResourceRec :=
  ResourceRec.mk 1 "r1" "Title" "slug" 5 "app" "Obj" [1] [] [] [] [7, 3]

/-- The database after the concrete C10 witness call. -/
def exDB2 : DB := DB.mk [exRes5] [exFileA, exFileB] [exUser] [3, 4] [] [] []

/-- A path lies at or below a directory exactly when the directory is a
prefix of it. -/
theorem underB_iff (base q : FPath) : underB base q = true ↔ ∃ t, q = base ++ t := by
  unfold underB
  rw [decide_eq_true_iff]
  constructor
  · intro h
    refine ⟨q.drop base.length, ?_⟩
    conv_lhs => rw [← List.take_append_drop base.length q]
    rw [h]
  · rintro ⟨t, rfl⟩
    exact List.take_left base t

/-- Claim C9: for every pid, get_science_metadata returns exactly the same
object as get_system_metadata; the two operations are extensionally
equal (get_science_metadata is defined as a call to get_system_metadata). -/
theorem get_science_metadata_eq_get_system_metadata :
    ∀ (db : DB) (pk : String), get_science_metadata db pk = get_system_metadata db pk :=
  fun _ _ => rfl

/-- Claim C7, evaluated on the code: raise NotImplemented() calls the
non-callable builtin constant NotImplemented, so get_related and
get_checksum raise TypeError — not the standard NotImplementedError the
stub intends — while leaving the persistent state unchanged. -/
theorem get_related_get_checksum_raise_type_error :
    ∀ (db : DB) (pk : String),
      get_related db pk = (Except.error PyExc.typeErrorNotCallable, db) ∧
      get_checksum db pk = (Except.error PyExc.typeErrorNotCallable, db) ∧
      (Except.error PyExc.typeErrorNotCallable : Except PyExc String) ≠
        Except.error PyExc.notImplementedError :=
  fun _ _ => ⟨rfl, rfl, by simp⟩

/-- Claim C5, evaluated on the code at a failing input: for resource r1
with files a.txt and b.txt, updating b.txt returns the record of a.txt
with the database unchanged (no update, no exception), because the
return statement sits inside the loop but outside the name check; and a
filename matching no file also returns a.txt instead of raising
ObjectDoesNotExist. -/
theorem update_resource_file_returns_first_file_unchanged :
    update_resource_file exDB "r1" "b.txt" "NEW" = Except.ok (exFileA, exDB) ∧
    update_resource_file exDB "r1" "zzz.txt" "NEW" = Except.ok (exFileA, exDB) ∧
    exFileA.name ≠ "b.txt" :=
  ⟨rfl, rfl, by decide⟩

/-- Claim C8: if any step of the dehydrate try-block raises (guessing the
content type, opening, reading, or base64-encoding), Base64FileField's
dehydrate returns None instead of propagating the exception. -/
theorem dehydrate_swallows_failures
    (env : DehydrateEnv) (instanceName : String) (bundle : Bundle)
    (ff : FieldFileV) (e : PyExc)
    (hff : bundle.fieldVal = some ff)
    (herr : dehydrateTryBody env ff = Except.error e) :
    dehydrate env instanceName bundle = none := by
  unfold dehydrate
  by_cases h1 : instanceName ∈ bundle.dataKeys
  · simp [h1]
  · by_cases h2 : bundle.objHasAttr = false
    · simp [h1, h2]
    · simp [h1, h2, hff, herr]

/-- Environment in which open raises (the other operations succeed). -/
def exEnvFail : DehydrateEnv :=
  DehydrateEnv.mk (fun _ => Except.ok none) (fun _ => Except.error PyExc.ioError)
    (fun s => Except.ok s) (fun s => Except.ok s)

/-- Bundle whose field is present and truthy. -/
def exBundle : Bundle := Bundle.mk [] true (some (FieldFileV.mk "media/img.png"))

/-- Witness for C8 at a concrete bundle and a concrete failing open. -/
theorem dehydrate_swallows_failures_witness :
    dehydrate exEnvFail "file_field" exBundle = none :=
  dehydrate_swallows_failures exEnvFail "file_field" exBundle
    (FieldFileV.mk "media/img.png") PyExc.ioError rfl rfl

/-- The for/else loop raises ObjectDoesNotExist exactly when no file in
the iterated list bears the requested name. -/
theorem findFileLoop_error_iff (filename : String) (l : List ResourceFileRec) :
    (∃ m, findFileLoop filename l = Except.error (PyExc.objectDoesNotExist m)) ↔
      ∀ f ∈ l, f.name ≠ filename := by
  induction l with
  | nil => simp [findFileLoop]
  | cons f rest ih =>
    by_cases h : f.name = filename
    · simp [findFileLoop, h]
    · simp [findFileLoop, h, ih]

/-- When the for/else loop returns a file, that file bears the requested
name and comes from the iterated list. -/
theorem findFileLoop_ok (filename : String) (l : List ResourceFileRec) (f : ResourceFileRec)
    (h : findFileLoop filename l = Except.ok f) : f.name = filename ∧ f ∈ l := by
  induction l with
  | nil => simp [findFileLoop] at h
  | cons g rest ih =>
    unfold findFileLoop at h
    by_cases hg : g.name = filename
    · rw [if_pos hg] at h
      injection h with h
      subst h
      exact ⟨hg, List.mem_cons_self g rest⟩
    · rw [if_neg hg] at h
      rcases ih h with ⟨h1, h2⟩
      exact ⟨h1, List.mem_cons_of_mem g h2⟩

/-- Claim C6: for an existing resource, get_resource_file raises the
framework's standard not-found exception (ObjectDoesNotExist) if and only
if no file of the resource has the requested name, and otherwise returns
a stored file of the resource whose name equals filename. -/
theorem get_resource_file_not_found_iff
    (db : DB) (pk filename : String) (r : ResourceRec)
    (hr : get_resource_by_shortkey db pk = Except.ok r) :
    ((∃ m, get_resource_file db pk filename = Except.error (PyExc.objectDoesNotExist m)) ↔
      ∀ f ∈ resourceFilesOf db r, f.name ≠ filename) ∧
    (∀ f, get_resource_file db pk filename = Except.ok f →
      f.name = filename ∧ f ∈ resourceFilesOf db r) := by
  unfold get_resource_file
  rw [hr]
  exact ⟨findFileLoop_error_iff filename _, fun f h => findFileLoop_ok filename _ f h⟩

/-- Witness for C6 on the concrete database, at a filename no file has. -/
theorem get_resource_file_not_found_iff_witness :
    ((∃ m, get_resource_file exDB "r1" "zzz" = Except.error (PyExc.objectDoesNotExist m)) ↔
      ∀ f ∈ resourceFilesOf exDB exRes, f.name ≠ "zzz") ∧
    (∀ f, get_resource_file exDB "r1" "zzz" = Except.ok f →
      f.name = "zzz" ∧ f ∈ resourceFilesOf exDB exRes) :=
  get_resource_file_not_found_iff exDB "r1" "zzz" exRes rfl

/-- The archive name of a file equals the archive name of its directory
followed by the file's basename, when the directory lies below the source
directory. -/
theorem arcnameOf_append (sourceDir d : FPath) (nm : String)
    (hu : underB sourceDir d = true) :
    arcnameOf sourceDir (d ++ [nm]) = arcnameOf sourceDir d ++ [nm] := by
  have hlen : sourceDir.length ≤ d.length := by
    rcases (underB_iff sourceDir d).mp hu with ⟨t, rfl⟩
    simp
  unfold arcnameOf
  rw [List.drop_append_of_le_length hlen]
  rfl

/-- Claim C3: make_zipfile writes an archive entry for every directory at
or below the source directory (empty directories included), and for every
regular file in such a directory an entry whose archive name is the
file's path relative to the parent of the source directory, carrying the
file's content. -/
theorem make_zipfile_entries_complete (fs : FS) (sourceDir : FPath) :
    (∀ d, d ∈ fs.dirs → underB sourceDir d = true →
        ZipEntry.mk (arcnameOf sourceDir d) none ∈ make_zipfile fs sourceDir) ∧
    (∀ d nm c, d ∈ fs.dirs → underB sourceDir d = true → (d ++ [nm], c) ∈ fs.files →
        ZipEntry.mk (arcnameOf sourceDir (d ++ [nm])) (some c) ∈ make_zipfile fs sourceDir) := by
  constructor
  · intro d hd hu
    unfold make_zipfile
    exact List.mem_flatMap.mpr
      ⟨d, List.mem_filter.mpr ⟨hd, hu⟩, List.mem_cons_self _ _⟩
  · intro d nm c hd hu hf
    unfold make_zipfile
    refine List.mem_flatMap.mpr ⟨d, List.mem_filter.mpr ⟨hd, hu⟩, ?_⟩
    refine List.mem_cons_of_mem _ ?_
    rw [arcnameOf_append sourceDir d nm hu]
    refine List.mem_map.mpr ⟨(nm, c), ?_, rfl⟩
    unfold dirFiles
    refine List.mem_filterMap.mpr ⟨(d ++ [nm], c), hf, ?_⟩
    simp [List.dropLast_concat, List.getLastD_eq_getLast?, List.getLast?_concat]

/-- Witness for C3 on a concrete tree: the empty subdirectory gets a
directory entry and the regular file gets an entry with its content. -/
theorem make_zipfile_entries_complete_witness :
    ZipEntry.mk (arcnameOf ["tmp", "src"] ["tmp", "src", "empty"]) none ∈
        make_zipfile exZipFS ["tmp", "src"] ∧
    ZipEntry.mk (arcnameOf ["tmp", "src"] (["tmp", "src"] ++ ["a.txt"])) (some "A") ∈
        make_zipfile exZipFS ["tmp", "src"] :=
  ⟨(make_zipfile_entries_complete exZipFS ["tmp", "src"]).1
      ["tmp", "src", "empty"] (by decide) (by decide),
   (make_zipfile_entries_complete exZipFS ["tmp", "src"]).2
      ["tmp", "src"] "a.txt" "A" (by decide) (by decide) (by decide)⟩

/-- The copy loop emits exactly one copy event per resource file, in list
order. -/
theorem copyLoop_trace (dest : FPath) (l : List ResourceFileRec) (fs : FS) :
    (copyLoop dest fs l).2 = l.map (fun f => BagEvent.copyFile f.srcPath dest) := by
  induction l generalizing fs with
  | nil => rfl
  | cons f rest ih => simp [copyLoop, ih]

/-- Claim C1: a completed create_bag call performs, in this order: create
the staging tree (bag path with visualization and contents
subdirectories), copy every resource file into the contents directory,
write resourcemetadata.json at the staging-tree root, convert the tree
into a bag with md5 checksums and the bag-info descriptor, compress the
tree into the single zip artifact, attach the artifact as a new Bags
record, then remove the zip file and the staging tree. -/
theorem create_bag_steps_in_order
    (cfg : Settings) (r : ResourceRec) (s : St) (o : Nat) (os : List Nat) (u : UserRec)
    (hown : r.owners = o :: os)
    (hu : s.db.users.find? (fun w => w.uid == o) = some u) :
    ∃ out, create_bag cfg r s = Except.ok out ∧
      out.trace =
        BagEvent.makeStagingDirs (destLocOf cfg) (bagitPathOf cfg r)
            (visualizationPathOf cfg r) (contentsPathOf cfg r) ::
          (resourceFilesOf s.db r).map
              (fun f => BagEvent.copyFile f.srcPath (contentsPathOf cfg r)) ++
          [BagEvent.writeResourceMetadata (bagitPathOf cfg r ++ ["resourcemetadata.json"]),
           BagEvent.makeBag (bagitPathOf cfg r) ["md5"] (bagInfoOf cfg r u),
           BagEvent.makeZip (zfOf cfg r) (bagitPathOf cfg r),
           BagEvent.createBagsRecord
             (BagsRec.mk r.resId (bagArtifact cfg r s (bagInfoOf cfg r u)) r.updated),
           BagEvent.unlinkZip (zfOf cfg r),
           BagEvent.removeStagingTree (bagitPathOf cfg r)] := by
  simp only [create_bag, hown, hu]
  refine ⟨_, rfl, ?_⟩
  simp [stepDirs, stepMetadata, copyLoop_trace, bagArtifact, stagedTreeFS]

/-- Witness for C1 on the concrete settings, resource and state. -/
theorem create_bag_steps_in_order_witness :
    ∃ out, create_bag exCfg exRes exSt = Except.ok out ∧
      out.trace =
        BagEvent.makeStagingDirs (destLocOf exCfg) (bagitPathOf exCfg exRes)
            (visualizationPathOf exCfg exRes) (contentsPathOf exCfg exRes) ::
          (resourceFilesOf exSt.db exRes).map
              (fun f => BagEvent.copyFile f.srcPath (contentsPathOf exCfg exRes)) ++
          [BagEvent.writeResourceMetadata (bagitPathOf exCfg exRes ++ ["resourcemetadata.json"]),
           BagEvent.makeBag (bagitPathOf exCfg exRes) ["md5"] (bagInfoOf exCfg exRes exUser),
           BagEvent.makeZip (zfOf exCfg exRes) (bagitPathOf exCfg exRes),
           BagEvent.createBagsRecord
             (BagsRec.mk exRes.resId
               (bagArtifact exCfg exRes exSt (bagInfoOf exCfg exRes exUser)) exRes.updated),
           BagEvent.unlinkZip (zfOf exCfg exRes),
           BagEvent.removeStagingTree (bagitPathOf exCfg exRes)] :=
  create_bag_steps_in_order exCfg exRes exSt 1 [] exUser rfl rfl

/-- Claim C2: a completed create_bag call returns a newly created Bags
record — appended to the bags table — whose content_object is the
resource, whose bag field holds the compressed artifact, and whose
timestamp equals the resource's updated time; the resource rows and the
resource-file rows are not modified. -/
theorem create_bag_returns_new_bags_record
    (cfg : Settings) (r : ResourceRec) (s : St) (o : Nat) (os : List Nat) (u : UserRec)
    (hown : r.owners = o :: os)
    (hu : s.db.users.find? (fun w => w.uid == o) = some u) :
    ∃ out, create_bag cfg r s = Except.ok out ∧
      out.ret.contentObject = r.resId ∧
      out.ret.bagFile = bagArtifact cfg r s (bagInfoOf cfg r u) ∧
      out.ret.timestamp = r.updated ∧
      out.state.db.bags = s.db.bags ++ [out.ret] ∧
      out.state.db.resources = s.db.resources ∧
      out.state.db.resourceFiles = s.db.resourceFiles := by
  simp only [create_bag, hown, hu]
  refine ⟨_, rfl, rfl, ?_, rfl, rfl, rfl, rfl⟩
  simp [bagArtifact, stagedTreeFS]

/-- Witness for C2 on the concrete settings, resource and state. -/
theorem create_bag_returns_new_bags_record_witness :
    ∃ out, create_bag exCfg exRes exSt = Except.ok out ∧
      out.ret.contentObject = exRes.resId ∧
      out.ret.bagFile = bagArtifact exCfg exRes exSt (bagInfoOf exCfg exRes exUser) ∧
      out.ret.timestamp = exRes.updated ∧
      out.state.db.bags = exSt.db.bags ++ [out.ret] ∧
      out.state.db.resources = exSt.db.resources ∧
      out.state.db.resourceFiles = exSt.db.resourceFiles :=
  create_bag_returns_new_bags_record exCfg exRes exSt 1 [] exUser rfl rfl

/-- Claim C4: after a completed create_bag call, the temporary state the
call created is gone: no directory or file below the staging tree
(bagit_path) remains, and the intermediate zip file is gone. -/
theorem create_bag_cleans_up_temp_state
    (cfg : Settings) (r : ResourceRec) (s : St) (o : Nat) (os : List Nat) (u : UserRec)
    (hown : r.owners = o :: os)
    (hu : s.db.users.find? (fun w => w.uid == o) = some u) :
    ∃ out, create_bag cfg r s = Except.ok out ∧
      (∀ d ∈ out.state.fs.dirs, ¬ ∃ t, d = bagitPathOf cfg r ++ t) ∧
      (∀ pc ∈ out.state.fs.files, (¬ ∃ t, pc.1 = bagitPathOf cfg r ++ t) ∧
        pc.1 ≠ zfOf cfg r) := by
  simp only [create_bag, hown, hu]
  refine ⟨_, rfl, ?_, ?_⟩
  · intro d hd
    simp only [rmtreeFS, List.mem_filter] at hd
    intro hex
    have hub : underB (bagitPathOf cfg r) d = true := (underB_iff _ _).mpr hex
    simp [hub] at hd
  · intro pc hpc
    simp only [rmtreeFS, unlinkFS, List.mem_filter] at hpc
    constructor
    · intro hex
      have hub : underB (bagitPathOf cfg r) pc.1 = true := (underB_iff _ _).mpr hex
      simp [hub] at hpc
    · rcases hpc with ⟨⟨-, hzf⟩, -⟩
      simpa using hzf

/-- Witness for C4 on the concrete settings, resource and state. -/
theorem create_bag_cleans_up_temp_state_witness :
    ∃ out, create_bag exCfg exRes exSt = Except.ok out ∧
      (∀ d ∈ out.state.fs.dirs, ¬ ∃ t, d = bagitPathOf exCfg exRes ++ t) ∧
      (∀ pc ∈ out.state.fs.files, (¬ ∃ t, pc.1 = bagitPathOf exCfg exRes ++ t) ∧
        pc.1 ≠ zfOf exCfg exRes) :=
  create_bag_cleans_up_temp_state exCfg exRes exSt 1 [] exUser rfl rfl

/-- A member stays in a many-to-many collection after an add. -/
theorem mem_addM2M_of_mem {l : List Nat} {x : Nat} (y : Nat) (h : x ∈ l) :
    x ∈ addM2M l y := by
  unfold addM2M
  split
  · exact h
  · exact List.mem_append_left _ h

/-- An added member is in the collection afterwards. -/
theorem mem_addM2M_self (l : List Nat) (x : Nat) : x ∈ addM2M l x := by
  unfold addM2M
  split
  · assumption
  · exact List.mem_append_right _ (List.mem_singleton.mpr rfl)

/-- Previous members survive a sequence of many-to-many adds. -/
theorem mem_foldl_addM2M_of_mem {l : List Nat} {x : Nat} (gs : List Nat) (h : x ∈ l) :
    x ∈ gs.foldl addM2M l := by
  induction gs generalizing l with
  | nil => exact h
  | cons g rest ih => exact ih (mem_addM2M_of_mem g h)

/-- Every added member is present after a sequence of many-to-many adds. -/
theorem mem_foldl_addM2M_of_mem_arg {gs : List Nat} {x : Nat} (l : List Nat) (h : x ∈ gs) :
    x ∈ gs.foldl addM2M l := by
  induction gs generalizing l with
  | nil => cases h
  | cons g rest ih =>
    rcases List.mem_cons.mp h with rfl | h2
    · exact mem_foldl_addM2M_of_mem rest (mem_addM2M_self l x)
    · exact ih (addM2M l g) h2

/-- The edit_users loop touches only the user lists: the group lists of a
successful run are unchanged. -/
theorem editUsersLoop_groups (db : DB) (l : List Nat) :
    ∀ (r r2 : ResourceRec), editUsersLoop db r l = Except.ok r2 →
      r2.editGroups = r.editGroups ∧ r2.viewGroups = r.viewGroups := by
  induction l with
  | nil =>
    intro r r2 h
    injection h with h
    subst h
    exact ⟨rfl, rfl⟩
  | cons u rest ih =>
    intro r r2 h
    unfold editUsersLoop at h
    split at h
    · cases h
    · simpa using ih _ r2 h

/-- The view_users loop touches only view_users: the group lists of a
successful run are unchanged. -/
theorem viewUsersLoop_groups (db : DB) (l : List Nat) :
    ∀ (r r2 : ResourceRec), viewUsersLoop db r l = Except.ok r2 →
      r2.editGroups = r.editGroups ∧ r2.viewGroups = r.viewGroups := by
  induction l with
  | nil =>
    intro r r2 h
    injection h with h
    subst h
    exact ⟨rfl, rfl⟩
  | cons u rest ih =>
    intro r r2 h
    unfold viewUsersLoop at h
    split at h
    · cases h
    · simpa using ih _ r2 h

/-- A successful view_groups loop leaves edit_groups unchanged and folds
the given groups into view_groups with many-to-many adds. -/
theorem viewGroupsLoop_spec (db : DB) (l : List Nat) :
    ∀ (r r2 : ResourceRec), viewGroupsLoop db r l = Except.ok r2 →
      r2.editGroups = r.editGroups ∧ r2.viewGroups = l.foldl addM2M r.viewGroups := by
  induction l with
  | nil =>
    intro r r2 h
    injection h with h
    subst h
    exact ⟨rfl, rfl⟩
  | cons g rest ih =>
    intro r r2 h
    unfold viewGroupsLoop at h
    split at h
    · cases h
    · rename_i gg hgg
      have hg : gg = g := by
        unfold group_from_id at hgg
        split at hgg
        · injection hgg with hgg
          exact hgg.symm
        · cases hgg
      subst hg
      simpa using ih _ r2 h

/-- The edit_users branch preserves both group lists. -/
theorem editUsersBranch_groups (db : DB) (r r2 : ResourceRec) (eu : List Nat)
    (h : editUsersBranch db r eu = Except.ok r2) :
    r2.editGroups = r.editGroups ∧ r2.viewGroups = r.viewGroups := by
  unfold editUsersBranch at h
  split at h
  · injection h with h
    subst h
    exact ⟨rfl, rfl⟩
  · simpa using editUsersLoop_groups db eu _ r2 h

/-- The view_users branch preserves both group lists. -/
theorem viewUsersBranch_groups (db : DB) (r r2 : ResourceRec) (vu : List Nat)
    (h : viewUsersBranch db r vu = Except.ok r2) :
    r2.editGroups = r.editGroups ∧ r2.viewGroups = r.viewGroups := by
  unfold viewUsersBranch at h
  split at h
  · injection h with h
    subst h
    exact ⟨rfl, rfl⟩
  · simpa using viewUsersLoop_groups db vu _ r2 h

/-- With a truthy view_groups argument, the view_groups branch clears
edit_groups and folds the given groups into view_groups. -/
theorem viewGroupsBranch_spec (db : DB) (r r2 : ResourceRec) (vg : List Nat)
    (hne : vg ≠ []) (h : viewGroupsBranch db r vg = Except.ok r2) :
    r2.editGroups = [] ∧ r2.viewGroups = vg.foldl addM2M r.viewGroups := by
  unfold viewGroupsBranch at h
  rw [if_neg (by simpa using hne)] at h
  simpa using viewGroupsLoop_spec db vg _ r2 h

/-- The owner keyword branch touches only the user and owner lists. -/
theorem applyOwnerKw_groups (r : ResourceRec) (ow : Option Nat) :
    (applyOwnerKw r ow).editGroups = r.editGroups ∧
    (applyOwnerKw r ow).viewGroups = r.viewGroups := by
  cases ow <;> simp [applyOwnerKw]

/-- Claim C10: calling update_resource with a non-empty view_groups and no
edit_groups clears the resource's edit_groups collection (not its
view_groups collection) and then adds the given groups to view_groups, so
previous view_groups members are retained alongside the new ones while
all previous edit_groups members are removed. -/
theorem update_resource_view_groups_clears_edit_groups
    (db : DB) (pk : String) (eu vu vg : List Nat) (kw : List String)
    (dm : List DublinElem) (fls : List (FPath × String)) (ow : Option Nat)
    (r0 r5 : ResourceRec) (db2 : DB)
    (hr0 : get_resource_by_shortkey db pk = Except.ok r0)
    (hvg : vg ≠ [])
    (hok : update_resource db pk eu vu [] vg kw dm fls ow = Except.ok (r5, db2)) :
    r5.editGroups = [] ∧
    r5.viewGroups = vg.foldl addM2M r0.viewGroups ∧
    (∀ x ∈ r0.viewGroups, x ∈ r5.viewGroups) ∧
    (∀ g ∈ vg, g ∈ r5.viewGroups) := by
  simp only [update_resource, hr0] at hok
  split at hok
  · cases hok
  · rename_i r2 h2
    split at hok
    · cases hok
    · rename_i r3 h3
      split at hok
      · cases hok
      · rename_i r4 h4
        split at hok
        · cases hok
        · rename_i r5c h5
          injection hok with hok
          rw [Prod.mk.injEq] at hok
          obtain ⟨hr5, -⟩ := hok
          subst hr5
          have hg2 := editUsersBranch_groups _ _ r2 eu h2
          have hg3 := viewUsersBranch_groups _ r2 r3 vu h3
          have hr43 : r4 = r3 := by
            have h40 : editGroupsBranch
                (if fls.isEmpty then db else replaceResourceFiles db r0 fls) r3 [] =
                Except.ok r3 := rfl
            rw [h40] at h4
            injection h4 with h4
            exact h4.symm
          subst hr43
          have hg5 := viewGroupsBranch_spec _ r4 r5c vg hvg h5
          have hga := applyOwnerKw_groups r0 ow
          have hvgeq : r4.viewGroups = r0.viewGroups := by
            rw [hg3.2, hg2.2, hga.2]
          refine ⟨hg5.1, ?_, ?_, ?_⟩
          · rw [hg5.2, hvgeq]
          · intro x hx
            rw [hg5.2, hvgeq]
            exact mem_foldl_addM2M_of_mem vg hx
          · intro g hg
            rw [hg5.2]
            exact mem_foldl_addM2M_of_mem_arg _ hg

/-- Witness for C10 on the concrete database: view_groups [3] given, no
edit_groups; edit group 9 is removed while view group 7 is retained next
to the new group 3. -/
theorem update_resource_view_groups_clears_edit_groups_witness :
    exRes5.editGroups = [] ∧
    exRes5.viewGroups = [3].foldl addM2M exRes.viewGroups ∧
    (∀ x ∈ exRes.viewGroups, x ∈ exRes5.viewGroups) ∧
    (∀ g ∈ [3], g ∈ exRes5.viewGroups) :=
  update_resource_view_groups_clears_edit_groups exDB "r1" [] [] [3] [] [] []
    none exRes exRes5 exDB2 rfl (by decide) rfl
